import Mathlib

/-!
Verification of the event pipeline of the AgentClaude observability system.

The development shallowly embeds the pipeline's TypeScript source:

* `apps/data-processing/src/database.ts` (`ObservabilityDatabase`): the
  SQLite-backed event store (`insertEvent`, `getEventById`, `getEvents`,
  `clearOldEvents`, `formatEventRow`).
* `apps/data-processing/src/index.ts` (`ObservabilityServer`): the ingestion
  endpoint (`POST /events`) and the WebSocket fan-out (`broadcastEvent`).
* `apps/observability-dashboard/src/services/websocket.ts`
  (`WebSocketService`): the resilient client connector (heartbeat, reconnect
  backoff, queue flush on reconnect).

Conventions of the embedding:

* JavaScript strings are modelled as `List Char` (abbreviated `Text`).
* JavaScript's `JSON.stringify` / `JSON.parse` (runtime builtins used by the
  database layer to store the `payload` and `chat` columns as TEXT) are
  modelled concretely by `stringifyV` / `parseJson` below. Numbers are
  modelled as integers (floating point is out of scope); `JSON.stringify`'s
  `\uXXXX` escapes for rare control characters are elided: the model escapes
  `"`, `\`, newline, tab and carriage return and passes other characters
  through verbatim, which preserves the parse-of-stringify behaviour the
  store relies on.
* SQLite's `DATETIME DEFAULT CURRENT_TIMESTAMP` clock is modelled as a `Nat`
  tick supplied explicitly to each operation; `AUTOINCREMENT` is a `nextId`
  counter in the store state.
* Fallible operations return `Option` / `Except`.
-/

/-- JavaScript string contents, as a list of unicode characters. -/
abbrev Text := List Char

/-! ## JSON values

`JVal` is the structured-value type of an event `payload`
(`Record<string, any>` in `types.ts`): maps, arrays, strings, integers,
booleans and null, nested arbitrarily. -/

/-- A JSON-representable structured value. Object fields are kept in order as
an association list, matching JavaScript object key order. -/
inductive JVal : Type where
  | jnull
  | jbool (b : Bool)
  | jint (n : Int)
  | jstr (cs : Text)
  | jarr (items : List JVal)
  | jobj (fields : List (Text × JVal))
deriving Repr

/-- The decimal digit character for `n < 10`. -/
def digitOf (n : Nat) : Char := Char.ofNat (48 + n)

/-- Decimal digits of `n`, most significant first; `fuel` only bounds the
recursion (any `fuel > n` is enough). -/
def natCharsAux : Nat → Nat → List Char
  | 0, _ => []
  | fuel + 1, n => if n < 10 then [digitOf n] else natCharsAux fuel (n / 10) ++ [digitOf (n % 10)]

/-- Decimal digit characters of a natural number, as JavaScript renders it. -/
def natChars (n : Nat) : List Char := natCharsAux (n + 1) n

/-- Decimal rendering of an integer: optional minus sign, then digits. -/
def intChars (i : Int) : List Char :=
  if i < 0 then '-' :: natChars i.natAbs else natChars i.natAbs

/-- JSON escaping of one string character (model of `JSON.stringify`'s string
escaping; see the header note on elided `\uXXXX` escapes). -/
def escChar (c : Char) : List Char :=
  if c = '"' then ['\\', '"']
  else if c = '\\' then ['\\', '\\']
  else if c = '\n' then ['\\', 'n']
  else if c = '\t' then ['\\', 't']
  else if c = '\r' then ['\\', 'r']
  else [c]

/-- JSON escaping of a whole string body. -/
def escStr : Text → List Char
  | [] => []
  | c :: cs => escChar c ++ escStr cs

mutual
/-- Model of `JSON.stringify` on a structured value, producing the TEXT
stored in the `payload` column by `ObservabilityDatabase.insertEvent`. -/
def stringifyV : JVal → List Char
  | .jnull => ['n', 'u', 'l', 'l']
  | .jbool true => ['t', 'r', 'u', 'e']
  | .jbool false => ['f', 'a', 'l', 's', 'e']
  | .jint n => intChars n
  | .jstr cs => '"' :: (escStr cs ++ ['"'])
  | .jarr items => '[' :: (stringifyItems items ++ [']'])
  | .jobj fields => '{' :: (stringifyFields fields ++ ['}'])
/-- Comma-separated rendering of array elements. -/
def stringifyItems : List JVal → List Char
  | [] => []
  | [v] => stringifyV v
  | v :: vs => stringifyV v ++ ',' :: stringifyItems vs
/-- Comma-separated rendering of object members (`"key":value`). -/
def stringifyFields : List (Text × JVal) → List Char
  | [] => []
  | [(k, v)] => '"' :: (escStr k ++ '"' :: ':' :: stringifyV v)
  | (k, v) :: fs => ('"' :: (escStr k ++ '"' :: ':' :: stringifyV v)) ++ ',' :: stringifyFields fs
end

/-- Decimal digit test, by code point (48–57). -/
def isDigitC (c : Char) : Bool := 48 ≤ c.toNat && c.toNat ≤ 57

/-- Split a character list into its leading digit run and the remainder. -/
def grabDigits : List Char → List Char × List Char
  | [] => ([], [])
  | c :: cs =>
    if isDigitC c then
      let p := grabDigits cs
      (c :: p.1, p.2)
    else ([], c :: cs)

/-- The natural number denoted by a digit run (most significant first). -/
def digitsNat (ds : List Char) : Nat := ds.foldl (fun a c => 10 * a + (c.toNat - 48)) 0

/-- Inverse of `escChar` on escape letters. -/
def unescJ (c : Char) : Option Char :=
  if c = '"' then some '"'
  else if c = '\\' then some '\\'
  else if c = 'n' then some '\n'
  else if c = 't' then some '\t'
  else if c = 'r' then some '\r'
  else none

/-- Scan a JSON string body up to its closing quote, undoing escapes;
`acc` holds the characters read so far, in reverse. -/
def scanJString (acc : List Char) : List Char → Option (Text × List Char)
  | [] => none
  | c :: rest =>
    if c = '"' then some (acc.reverse, rest)
    else if c = '\\' then
      match rest with
      | [] => none
      | e :: rest2 =>
        match unescJ e with
        | some u => scanJString (u :: acc) rest2
        | none => none
    else scanJString (c :: acc) rest

mutual
/-- Model of `JSON.parse` (on whitespace-free input, which is all
`JSON.stringify` emits): parse one value, returning it and the rest of the
input. `fuel` only bounds recursion; any `fuel >` input length is enough. -/
def parseJV : Nat → List Char → Option (JVal × List Char)
  | 0, _ => none
  | fuel + 1, cs =>
    match cs with
    | [] => none
    | c :: r =>
      if c = 'n' then
        match r with
        | 'u' :: 'l' :: 'l' :: r2 => some (.jnull, r2)
        | _ => none
      else if c = 't' then
        match r with
        | 'r' :: 'u' :: 'e' :: r2 => some (.jbool true, r2)
        | _ => none
      else if c = 'f' then
        match r with
        | 'a' :: 'l' :: 's' :: 'e' :: r2 => some (.jbool false, r2)
        | _ => none
      else if c = '"' then
        match scanJString [] r with
        | some (s, r2) => some (.jstr s, r2)
        | none => none
      else if c = '[' then
        match r with
        | [] => none
        | c2 :: r2 =>
          if c2 = ']' then some (.jarr [], r2)
          else
            match parseJItems fuel (c2 :: r2) with
            | some (vs, r3) => some (.jarr vs, r3)
            | none => none
      else if c = '{' then
        match r with
        | [] => none
        | c2 :: r2 =>
          if c2 = '}' then some (.jobj [], r2)
          else
            match parseJFields fuel (c2 :: r2) with
            | some (fs, r3) => some (.jobj fs, r3)
            | none => none
      else if c = '-' then
        match grabDigits r with
        | ([], _) => none
        | (d :: ds, r2) => some (.jint (-(digitsNat (d :: ds) : Int)), r2)
      else if isDigitC c then
        some (.jint (digitsNat (grabDigits (c :: r)).1 : Int), (grabDigits (c :: r)).2)
      else none
/-- Parse one-or-more comma-separated array elements up to the closing `]`. -/
def parseJItems : Nat → List Char → Option (List JVal × List Char)
  | 0, _ => none
  | fuel + 1, cs =>
    match parseJV fuel cs with
    | none => none
    | some (v, r) =>
      match r with
      | [] => none
      | c :: r2 =>
        if c = ']' then some ([v], r2)
        else if c = ',' then
          match parseJItems fuel r2 with
          | some (vs, r3) => some (v :: vs, r3)
          | none => none
        else none
/-- Parse one-or-more comma-separated object members up to the closing `}`. -/
def parseJFields : Nat → List Char → Option (List (Text × JVal) × List Char)
  | 0, _ => none
  | fuel + 1, cs =>
    match cs with
    | [] => none
    | c :: r =>
      if c = '"' then
        match scanJString [] r with
        | none => none
        | some (k, r1) =>
          match r1 with
          | [] => none
          | c2 :: r2 =>
            if c2 = ':' then
              match parseJV fuel r2 with
              | none => none
              | some (v, r3) =>
                match r3 with
                | [] => none
                | c3 :: r4 =>
                  if c3 = '}' then some ([(k, v)], r4)
                  else if c3 = ',' then
                    match parseJFields fuel r4 with
                    | some (fs, r5) => some ((k, v) :: fs, r5)
                    | none => none
                  else none
            else none
      else none
end

/-- Model of `JSON.parse` on a whole document: the parse must consume the
entire input; `none` models a thrown `SyntaxError`. -/
def parseJson (cs : List Char) : Option JVal :=
  match parseJV (cs.length + 1) cs with
  | some (v, []) => some v
  | _ => none

/-! ## Round-trip of the JSON codec

`parseJson (stringifyV v) = some v` for every structured value: this is the
fact the store's `payload` round-trip (claim C2) rests on. -/

/-- A continuation list that cannot extend a rendered number: empty, or headed
by a non-digit. Every separator the renderer emits after a value (`,`, `]`,
`}`, end of input) qualifies. -/
def restOk : List Char → Bool
  | [] => true
  | c :: _ => !isDigitC c

theorem digitOf_toNat (n : Nat) (h : n < 10) : (digitOf n).toNat = 48 + n := by
  interval_cases n <;> decide

theorem isDigitC_digitOf (n : Nat) (h : n < 10) : isDigitC (digitOf n) = true := by
  interval_cases n <;> decide

theorem natCharsAux_digits :
    ∀ fuel n, n < fuel → ∀ c ∈ natCharsAux fuel n, isDigitC c = true := by
  intro fuel
  induction fuel with
  | zero => intro n h; omega
  | succ f ih =>
    intro n h c hc
    simp only [natCharsAux] at hc
    by_cases h10 : n < 10
    · rw [if_pos h10] at hc
      simp only [List.mem_singleton] at hc
      subst hc
      exact isDigitC_digitOf n h10
    · rw [if_neg h10] at hc
      have hdiv : n / 10 < n := Nat.div_lt_self (by omega) (by omega)
      rcases List.mem_append.mp hc with hc | hc
      · exact ih (n / 10) (by omega) c hc
      · simp only [List.mem_singleton] at hc
        subst hc
        exact isDigitC_digitOf _ (Nat.mod_lt _ (by omega))

theorem natCharsAux_ne_nil : ∀ fuel n, n < fuel → natCharsAux fuel n ≠ [] := by
  intro fuel
  cases fuel with
  | zero => intro n h; omega
  | succ f =>
    intro n _
    simp only [natCharsAux]
    by_cases h10 : n < 10
    · simp [h10]
    · simp [h10]

theorem digitsNat_natCharsAux :
    ∀ fuel n, n < fuel → digitsNat (natCharsAux fuel n) = n := by
  intro fuel
  induction fuel with
  | zero => intro n h; omega
  | succ f ih =>
    intro n h
    simp only [natCharsAux]
    by_cases h10 : n < 10
    · rw [if_pos h10]
      simp [digitsNat, digitOf_toNat n h10]
    · rw [if_neg h10]
      have hdiv : n / 10 < n := Nat.div_lt_self (by omega) (by omega)
      have ihd := ih (n / 10) (by omega)
      simp only [digitsNat] at ihd ⊢
      rw [List.foldl_append, ihd]
      simp only [List.foldl_cons, List.foldl_nil,
        digitOf_toNat (n % 10) (Nat.mod_lt _ (by omega))]
      omega

theorem natChars_digits (n : Nat) : ∀ c ∈ natChars n, isDigitC c = true :=
  natCharsAux_digits (n + 1) n (by omega)

theorem natChars_ne_nil (n : Nat) : natChars n ≠ [] :=
  natCharsAux_ne_nil (n + 1) n (by omega)

theorem digitsNat_natChars (n : Nat) : digitsNat (natChars n) = n :=
  digitsNat_natCharsAux (n + 1) n (by omega)

theorem grabDigits_stop (cs : List Char) (h : restOk cs = true) :
    grabDigits cs = ([], cs) := by
  cases cs with
  | nil => rfl
  | cons c t =>
    simp only [restOk, Bool.not_eq_true'] at h
    simp [grabDigits, h]

theorem grabDigits_run (ds rest : List Char) (hds : ∀ c ∈ ds, isDigitC c = true)
    (hrest : restOk rest = true) : grabDigits (ds ++ rest) = (ds, rest) := by
  induction ds with
  | nil => simpa using grabDigits_stop rest hrest
  | cons c t ih =>
    have hc : isDigitC c = true := hds c (by simp)
    have ht := ih (fun x hx => hds x (by simp [hx]))
    simp [grabDigits, hc, ht]

theorem scanJString_esc (c : Char) (acc rest : List Char) :
    scanJString acc (escChar c ++ rest) = scanJString (c :: acc) rest := by
  by_cases h1 : c = '"'
  · subst h1; simp [escChar, scanJString, unescJ]
  · by_cases h2 : c = '\\'
    · subst h2; simp [escChar, scanJString, unescJ]
    · by_cases h3 : c = '\n'
      · subst h3; simp [escChar, scanJString, unescJ]
      · by_cases h4 : c = '\t'
        · subst h4; simp [escChar, scanJString, unescJ]
        · by_cases h5 : c = '\r'
          · subst h5; simp [escChar, scanJString, unescJ]
          · rw [show escChar c ++ rest = c :: rest from by simp [escChar, h1, h2, h3, h4, h5]]
            rw [scanJString.eq_def]
            simp [h1, h2]

theorem scanJString_escStr (cs : Text) :
    ∀ acc rest, scanJString acc (escStr cs ++ '"' :: rest) = some (acc.reverse ++ cs, rest) := by
  induction cs with
  | nil =>
    intro acc rest
    rw [escStr, List.nil_append, scanJString.eq_def]
    simp
  | cons c t ih =>
    intro acc rest
    rw [escStr, List.append_assoc, scanJString_esc, ih]
    simp

theorem isDigitC_ne_key (c : Char) (h : isDigitC c = true) :
    c ≠ 'n' ∧ c ≠ 't' ∧ c ≠ 'f' ∧ c ≠ '"' ∧ c ≠ '[' ∧ c ≠ '{' ∧ c ≠ '-' := by
  refine ⟨?_, ?_, ?_, ?_, ?_, ?_, ?_⟩ <;> (rintro rfl; exact absurd h (by decide))

theorem isDigitC_ne_close (c : Char) (h : isDigitC c = true) : c ≠ ']' ∧ c ≠ '}' := by
  refine ⟨?_, ?_⟩ <;> (rintro rfl; exact absurd h (by decide))

example (fuel : Nat) (rest : List Char) :
    parseJV (fuel + 1) ('n' :: 'u' :: 'l' :: 'l' :: rest) = some (.jnull, rest) := by
  simp [parseJV]

example (fuel : Nat) (rest : List Char) (cs : Text) :
    parseJV (fuel + 1) ('"' :: (escStr cs ++ '"' :: rest)) = some (.jstr cs, rest) := by
  simp [parseJV, scanJString_escStr]

theorem parseJV_int (n : Int) (fuel : Nat) (rest : List Char) (hr : restOk rest = true) :
    parseJV (fuel + 1) (intChars n ++ rest) = some (.jint n, rest) := by
  by_cases hn : n < 0
  · have hrun : grabDigits (natChars n.natAbs ++ rest) = (natChars n.natAbs, rest) :=
      grabDigits_run _ _ (natChars_digits _) hr
    obtain ⟨d, ds, hnc⟩ : ∃ d ds, natChars n.natAbs = d :: ds := by
      cases h : natChars n.natAbs with
      | nil => exact absurd h (natChars_ne_nil _)
      | cons d ds => exact ⟨d, ds, rfl⟩
    have hd : digitsNat (d :: ds) = n.natAbs := by rw [← hnc, digitsNat_natChars]
    have harg : intChars n ++ rest = '-' :: (natChars n.natAbs ++ rest) := by
      simp [intChars, hn]
    rw [harg]
    simp only [parseJV]
    rw [hrun] at *
    simp [hnc, hd]
    rw [abs_of_neg hn]
    omega
  · obtain ⟨d, ds, hnc⟩ : ∃ d ds, natChars n.natAbs = d :: ds := by
      cases h : natChars n.natAbs with
      | nil => exact absurd h (natChars_ne_nil _)
      | cons d ds => exact ⟨d, ds, rfl⟩
    have hdig : isDigitC d = true := natChars_digits n.natAbs d (by rw [hnc]; simp)
    obtain ⟨k1, k2, k3, k4, k5, k6, k7⟩ := isDigitC_ne_key d hdig
    have hrun : grabDigits (natChars n.natAbs ++ rest) = (natChars n.natAbs, rest) :=
      grabDigits_run _ _ (natChars_digits _) hr
    have hd : digitsNat (natChars n.natAbs) = n.natAbs := digitsNat_natChars _
    have harg : intChars n ++ rest = d :: (ds ++ rest) := by
      simp [intChars, hn, hnc]
    rw [harg]
    simp only [parseJV]
    rw [show d :: (ds ++ rest) = natChars n.natAbs ++ rest from by rw [hnc]; simp] at *
    simp only [if_neg k1, if_neg k2, if_neg k3, if_neg k4, if_neg k5, if_neg k6, if_neg k7,
      if_pos hdig, hrun, hd]
    simp
    omega

theorem stringifyV_head (v : JVal) :
    ∃ c t, stringifyV v = c :: t ∧ ¬c = ']' ∧ ¬c = '}' := by
  cases v with
  | jnull => exact ⟨'n', _, rfl, by decide, by decide⟩
  | jbool b =>
    cases b
    · exact ⟨'f', _, rfl, by decide, by decide⟩
    · exact ⟨'t', _, rfl, by decide, by decide⟩
  | jint n =>
    by_cases hn : n < 0
    · exact ⟨'-', natChars n.natAbs, by simp [stringifyV, intChars, hn], by decide, by decide⟩
    · obtain ⟨d, ds, hnc⟩ : ∃ d ds, natChars n.natAbs = d :: ds := by
        cases h : natChars n.natAbs with
        | nil => exact absurd h (natChars_ne_nil _)
        | cons d ds => exact ⟨d, ds, rfl⟩
      have hdig : isDigitC d = true := natChars_digits n.natAbs d (by rw [hnc]; simp)
      obtain ⟨h1, h2⟩ := isDigitC_ne_close d hdig
      exact ⟨d, ds, by simp [stringifyV, intChars, hn, hnc], h1, h2⟩
  | jstr cs => exact ⟨'"', _, rfl, by decide, by decide⟩
  | jarr items => exact ⟨'[', _, rfl, by decide, by decide⟩
  | jobj fields => exact ⟨'{', _, rfl, by decide, by decide⟩

theorem stringifyItems_cons (v : JVal) (vs : List JVal) :
    ∃ t, stringifyItems (v :: vs) = stringifyV v ++ t := by
  cases vs with
  | nil => exact ⟨[], by simp [stringifyItems]⟩
  | cons w ws => exact ⟨',' :: stringifyItems (w :: ws), rfl⟩

theorem stringifyFields_shape (k : Text) (v : JVal) (fs : List (Text × JVal)) :
    ∃ t, stringifyFields ((k, v) :: fs) = '"' :: t := by
  cases fs with
  | nil => exact ⟨_, rfl⟩
  | cons f2 fs2 =>
    exact ⟨escStr k ++ '"' :: ':' :: (stringifyV v ++ ',' :: stringifyFields (f2 :: fs2)),
      by simp [stringifyFields]⟩

theorem parseJV_roundTrip_aux :
    ∀ fuel : Nat,
      (∀ v rest, (stringifyV v).length < fuel → restOk rest = true →
        parseJV fuel (stringifyV v ++ rest) = some (v, rest))
      ∧ (∀ v vs rest, (stringifyItems (v :: vs)).length + 1 < fuel →
        parseJItems fuel (stringifyItems (v :: vs) ++ ']' :: rest) = some (v :: vs, rest))
      ∧ (∀ k v fs rest, (stringifyFields ((k, v) :: fs)).length + 1 < fuel →
        parseJFields fuel (stringifyFields ((k, v) :: fs) ++ '}' :: rest)
          = some ((k, v) :: fs, rest)) := by
  intro fuel
  induction fuel with
  | zero =>
    refine ⟨fun v rest h _ => absurd h (by omega), fun v vs rest h => absurd h (by omega),
      fun k v fs rest h => absurd h (by omega)⟩
  | succ f ih =>
    obtain ⟨ihv, ihi, ihf⟩ := ih
    refine ⟨?_, ?_, ?_⟩
    · -- values
      intro v rest hlen hr
      cases v with
      | jnull => simp [stringifyV, parseJV]
      | jbool b => cases b <;> simp [stringifyV, parseJV]
      | jint n => exact parseJV_int n f rest hr
      | jstr cs =>
        have harg : stringifyV (.jstr cs) ++ rest = '"' :: (escStr cs ++ '"' :: rest) := by
          simp [stringifyV]
        rw [harg]
        simp [parseJV, scanJString_escStr]
      | jarr items =>
        cases items with
        | nil => simp [stringifyV, stringifyItems, parseJV]
        | cons v vs =>
          obtain ⟨c2, t2, hhead, hne1, _⟩ := stringifyV_head v
          obtain ⟨tail, htail⟩ := stringifyItems_cons v vs
          have hcons : stringifyItems (v :: vs) ++ ']' :: rest
              = c2 :: (t2 ++ (tail ++ ']' :: rest)) := by
            rw [htail, hhead]; simp
          have hlen2 : (stringifyItems (v :: vs)).length + 1 < f := by
            simp only [stringifyV, List.length_cons, List.length_append,
              List.length_singleton] at hlen
            omega
          have key := ihi v vs rest hlen2
          rw [hcons] at key
          have harg : stringifyV (.jarr (v :: vs)) ++ rest
              = '[' :: (c2 :: (t2 ++ (tail ++ ']' :: rest))) := by
            rw [← hcons]; simp [stringifyV]
          rw [harg]
          simp only [parseJV]
          simp [hne1, key]
      | jobj fields =>
        cases fields with
        | nil => simp [stringifyV, stringifyFields, parseJV]
        | cons kv fs =>
          obtain ⟨k, v⟩ := kv
          obtain ⟨t2, hshape⟩ := stringifyFields_shape k v fs
          have hcons : stringifyFields ((k, v) :: fs) ++ '}' :: rest
              = '"' :: (t2 ++ '}' :: rest) := by
            rw [hshape]; simp
          have hlen2 : (stringifyFields ((k, v) :: fs)).length + 1 < f := by
            simp only [stringifyV, List.length_cons, List.length_append,
              List.length_singleton] at hlen
            omega
          have key := ihf k v fs rest hlen2
          rw [hcons] at key
          have harg : stringifyV (.jobj ((k, v) :: fs)) ++ rest
              = '{' :: ('"' :: (t2 ++ '}' :: rest)) := by
            rw [← hcons]; simp [stringifyV]
          rw [harg]
          simp only [parseJV]
          simp [key]
    · -- array elements
      intro v vs rest hlen
      cases vs with
      | nil =>
        have hv := ihv v (']' :: rest)
          (by simp only [stringifyItems, List.length_cons] at hlen; omega) rfl
        have harg : stringifyItems [v] ++ ']' :: rest = stringifyV v ++ ']' :: rest := by
          simp [stringifyItems]
        rw [harg]
        simp only [parseJItems]
        rw [hv]
        simp
      | cons w ws =>
        simp only [stringifyItems, List.length_append, List.length_cons] at hlen
        have hv := ihv v (',' :: (stringifyItems (w :: ws) ++ ']' :: rest)) (by omega) rfl
        have key := ihi w ws rest (by omega)
        have harg : stringifyItems (v :: w :: ws) ++ ']' :: rest
            = stringifyV v ++ ',' :: (stringifyItems (w :: ws) ++ ']' :: rest) := by
          simp [stringifyItems]
        rw [harg]
        simp only [parseJItems]
        rw [hv]
        simp [key]
    · -- object members
      intro k v fs rest hlen
      cases fs with
      | nil =>
        have hv := ihv v ('}' :: rest)
          (by simp only [stringifyFields, List.length_cons, List.length_append] at hlen; omega)
          rfl
        have hscan := scanJString_escStr k [] (':' :: (stringifyV v ++ '}' :: rest))
        have harg : stringifyFields [(k, v)] ++ '}' :: rest
            = '"' :: (escStr k ++ '"' :: (':' :: (stringifyV v ++ '}' :: rest))) := by
          simp [stringifyFields]
        rw [harg]
        simp only [parseJFields]
        simp only [List.reverse_nil, List.nil_append] at hscan
        simp [hscan, hv]
      | cons kv2 fs2 =>
        obtain ⟨k2, v2⟩ := kv2
        simp only [stringifyFields, List.length_append, List.length_cons] at hlen
        have hv := ihv v (',' :: (stringifyFields ((k2, v2) :: fs2) ++ '}' :: rest))
          (by omega) rfl
        have key := ihf k2 v2 fs2 rest (by omega)
        have hscan := scanJString_escStr k []
          (':' :: (stringifyV v ++ ',' :: (stringifyFields ((k2, v2) :: fs2) ++ '}' :: rest)))
        have harg : stringifyFields ((k, v) :: (k2, v2) :: fs2) ++ '}' :: rest
            = '"' :: (escStr k ++ '"' :: (':' :: (stringifyV v
                ++ ',' :: (stringifyFields ((k2, v2) :: fs2) ++ '}' :: rest)))) := by
          simp [stringifyFields]
        rw [harg]
        simp only [parseJFields]
        simp only [List.reverse_nil, List.nil_append] at hscan
        simp [hscan, hv, key]

/-- Round-trip of the modelled JSON codec: `JSON.parse` inverts
`JSON.stringify` on every structured value. -/
theorem parseJson_stringifyV (v : JVal) : parseJson (stringifyV v) = some v := by
  have h := (parseJV_roundTrip_aux ((stringifyV v).length + 1)).1 v [] (by omega) rfl
  simp only [List.append_nil] at h
  simp [parseJson, h]

/-! ## The Event Store (`ObservabilityDatabase`, `apps/data-processing/src/database.ts`)

The `events` table is a list of rows in insertion order; `AUTOINCREMENT` is
the `nextId` counter; the `DATETIME DEFAULT CURRENT_TIMESTAMP` clock is a
`Nat` tick passed to each operation (`CURRENT_TIMESTAMP` is non-decreasing
across calls, which ordering theorems take as a hypothesis where needed). -/

/-- The fixed six-member `HookEventType` enumeration of `types.ts`. The
runtime representation of an event type is a plain string; this list is the
enumeration the type annotation names. -/
def hookEventTypes : List Text :=
  [['P','r','e','T','o','o','l','U','s','e'],
   ['P','o','s','t','T','o','o','l','U','s','e'],
   ['U','s','e','r','P','r','o','m','p','t','S','u','b','m','i','t'],
   ['N','o','t','i','f','i','c','a','t','i','o','n'],
   ['S','t','o','p'],
   ['S','u','b','a','g','e','n','t','S','t','o','p']]

/-- A candidate event as `insertEvent` receives it (`HookEvent` in
`types.ts`); `hook_event_type` is a plain string at runtime. -/
structure HookEvent where
  source_app : Text
  session_id : Text
  hook_event_type : Text
  payload : JVal
  chat : Option JVal := none
  summary : Option Text := none
  timestamp : Text

/-- A row of the `events` table: `payload` and `chat` are TEXT columns
holding serialized JSON; `summary` and `chat` are nullable. -/
structure EventRow where
  id : Nat
  source_app : Text
  session_id : Text
  hook_event_type : Text
  payload : Text
  chat : Option Text
  summary : Option Text
  timestamp : Text
  created_at : Nat
  updated_at : Nat
deriving Repr, DecidableEq

/-- A stored event as returned to callers (`DatabaseEvent` in `types.ts`),
produced by `formatEventRow`; `payload`/`chat` are `JSON.parse`d (`none`
models absence, or a thrown parse error). -/
structure DatabaseEvent where
  id : Nat
  source_app : Text
  session_id : Text
  hook_event_type : Text
  payload : Option JVal
  chat : Option JVal
  summary : Option Text
  timestamp : Text
  created_at : Nat
  updated_at : Nat

/-- The store state: rows in insertion order plus the `AUTOINCREMENT`
counter (SQLite starts assigning at 1). -/
structure DBState where
  rows : List EventRow := []
  nextId : Nat := 1
deriving Repr, DecidableEq

/-- JavaScript `s || null` / `s || undefined` on an optional string: the
empty string is falsy and collapses to "no value". -/
def orNull : Option Text → Option Text
  | some s => if s.isEmpty then none else some s
  | none => none

/-- Model of the JavaScript truthiness test applied to an optional JSON
value (`undefined`, `null`, `false`, `0` and `""` are falsy). -/
def jvTruthy : Option JVal → Bool
  | none => false
  | some .jnull => false
  | some (.jbool b) => b
  | some (.jint n) => n != 0
  | some (.jstr cs) => !cs.isEmpty
  | some (.jarr _) => true
  | some (.jobj _) => true

/-- Model of `ObservabilityDatabase.formatEventRow`: shapes a row into a
`DatabaseEvent`, `JSON.parse`-ing the `payload` and `chat` TEXT columns and
mapping a NULL/empty `summary` to "absent" (`row.summary || undefined`). -/
def formatEventRow (r : EventRow) : DatabaseEvent :=
  { id := r.id
    source_app := r.source_app
    session_id := r.session_id
    hook_event_type := r.hook_event_type
    payload := parseJson r.payload
    chat := r.chat.bind parseJson
    summary := orNull r.summary
    timestamp := r.timestamp
    created_at := r.created_at
    updated_at := r.updated_at }

/-- Model of `ObservabilityDatabase.insertEvent`: serializes `payload` (and
`chat` when truthy; `summary || null`), INSERTs a row with the next
`AUTOINCREMENT` id and `created_at = updated_at = CURRENT_TIMESTAMP`, then
SELECTs the row back by `lastID` and formats it. The TypeScript performs no
validation of `source_app`, `session_id` or `hook_event_type` (the table
columns are `TEXT NOT NULL` with no CHECK constraint, and the empty string
is not NULL). The `none` result models the "Failed to retrieve inserted
event" rejection when the SELECT finds no row. -/
def insertEvent (st : DBState) (now : Nat) (e : HookEvent) :
    Option DatabaseEvent × DBState :=
  let row : EventRow :=
    { id := st.nextId
      source_app := e.source_app
      session_id := e.session_id
      hook_event_type := e.hook_event_type
      payload := stringifyV e.payload
      chat := match e.chat with
        | some c => if jvTruthy (some c) then some (stringifyV c) else none
        | none => none
      summary := orNull e.summary
      timestamp := e.timestamp
      created_at := now
      updated_at := now }
  let st' : DBState := { rows := st.rows ++ [row], nextId := st.nextId + 1 }
  ((st'.rows.find? (fun r => r.id == st.nextId)).map formatEventRow, st')

/-- Model of `ObservabilityDatabase.getEventById`:
`SELECT * FROM events WHERE id = ?`, formatted, `null` when absent. -/
def getEventById (st : DBState) (id : Nat) : Option DatabaseEvent :=
  (st.rows.find? (fun r => r.id == id)).map formatEventRow

/-- Model of `GET /events` query-parameter shapes (`EventsQuery` in
`types.ts`): every field optional. -/
structure EventsQuery where
  limit : Option Nat := none
  offset : Option Nat := none
  source_app : Option Text := none
  session_id : Option Text := none
  event_type : Option Text := none
  start_time : Option Text := none
  end_time : Option Text := none
  search : Option Text := none

/-- JavaScript truthiness of an optional string (`""` is falsy): decides
whether `getEvents` adds the corresponding SQL clause. -/
def truthyText : Option Text → Bool
  | some s => !s.isEmpty
  | none => false

/-- JavaScript truthiness of an optional number (`0` is falsy). -/
def truthyNum : Option Nat → Bool
  | some n => n != 0
  | none => false

/-- SQLite TEXT comparison (code-point order), for the `timestamp >= ?` /
`timestamp <= ?` range clauses. -/
def textLe : Text → Text → Bool
  | [], _ => true
  | _ :: _, [] => false
  | a :: as, b :: bs =>
    if a.toNat < b.toNat then true
    else if b.toNat < a.toNat then false
    else textLe as bs

/-- ASCII lower-casing of one character, as SQLite's default `LIKE` folds
case for ASCII letters. -/
def lowerAscii (c : Char) : Char :=
  if 65 ≤ c.toNat ∧ c.toNat ≤ 90 then Char.ofNat (c.toNat + 32) else c

/-- SQLite `LIKE` pattern matching (default behaviour, no `ESCAPE` clause,
as `getEvents` uses it): `%` in the pattern matches any run of characters
(including the empty run), `_` matches exactly one character, and every
other pattern character matches its ASCII-case-folded self. `fuel` only
bounds the recursion — every recursive call shrinks `pat.length + s.length`,
so any `fuel` above that sum is enough (see `likeMatchAux_congr`). -/
def likeMatchAux : Nat → Text → Text → Bool
  | 0, _, _ => false
  | fuel + 1, pat, s =>
    match pat with
    | [] => s.isEmpty
    | p :: ps =>
      if p = '%' then
        likeMatchAux fuel ps s
          || (match s with
              | [] => false
              | _ :: t => likeMatchAux fuel (p :: ps) t)
      else
        match s with
        | [] => false
        | c :: t => ((p == '_') || lowerAscii p == lowerAscii c) && likeMatchAux fuel ps t

/-- SQLite `s LIKE pat` (default ASCII-case-insensitive, `%`/`_` wildcards
active). -/
def likeMatch (pat s : Text) : Bool := likeMatchAux (pat.length + s.length + 1) pat s

/-- SQLite `value LIKE '%' || search || '%'`, exactly the predicate the
source builds from the user-supplied `search` term — whose own `%` and `_`
characters therefore act as wildcards. -/
def likeContains (value search : Text) : Bool :=
  likeMatch ('%' :: (search ++ ['%'])) value

/-- The `LIKE` matcher is fuel-independent once the fuel exceeds the sizes:
every recursive call strictly shrinks `pat.length + s.length` while
consuming one unit of fuel. -/
theorem likeMatchAux_congr :
    ∀ fuel1 fuel2 pat s, pat.length + s.length < fuel1 →
      pat.length + s.length < fuel2 →
      likeMatchAux fuel1 pat s = likeMatchAux fuel2 pat s := by
  intro fuel1
  induction fuel1 with
  | zero => intro fuel2 pat s h1 h2; omega
  | succ f1 ih =>
    intro fuel2 pat s h1 h2
    cases fuel2 with
    | zero => omega
    | succ f2 =>
      cases pat with
      | nil => rfl
      | cons p ps =>
        simp only [likeMatchAux]
        by_cases hp : p = '%'
        · rw [if_pos hp, if_pos hp]
          have e1 : likeMatchAux f1 ps s = likeMatchAux f2 ps s := by
            apply ih
            · simp only [List.length_cons] at h1; omega
            · simp only [List.length_cons] at h2; omega
          rw [e1]
          cases s with
          | nil => rfl
          | cons c t =>
            have e2 : likeMatchAux f1 (p :: ps) t = likeMatchAux f2 (p :: ps) t := by
              apply ih
              · simp only [List.length_cons] at h1 ⊢; omega
              · simp only [List.length_cons] at h2 ⊢; omega
            simp [e2]
        · rw [if_neg hp, if_neg hp]
          cases s with
          | nil => rfl
          | cons c t =>
            have e3 : likeMatchAux f1 ps t = likeMatchAux f2 ps t := by
              apply ih
              · simp only [List.length_cons] at h1; omega
              · simp only [List.length_cons] at h2; omega
            simp [e3]

/-- Wildcards in the user-supplied search term are live, exactly as in the
program: `_` matches any one character, `%` any run, matching is
ASCII-case-insensitive, and `_` does not match the empty run. -/
theorem likeContains_wildcard_semantics :
    likeContains ['u', 's', 'e', 'r', 'A', 'i', 'd'] ['r', '_', 'i'] = true
    ∧ likeContains ['a', 'x', 'y', 'b'] ['a', '%', 'b'] = true
    ∧ likeContains ['a', 'b'] ['a', '_', 'b'] = false
    ∧ likeContains ['A', 'B', 'C'] ['b'] = true := by decide

/-- The WHERE-clause semantics assembled by
`ObservabilityDatabase.getEvents`: a conjunct is added only when the query
field is truthy; the free-text search is
`payload LIKE ? OR summary LIKE ?` (a NULL `summary` matches nothing). -/
def rowMatches (q : EventsQuery) (r : EventRow) : Bool :=
  (!truthyText q.source_app || r.source_app == q.source_app.getD []) &&
  (!truthyText q.session_id || r.session_id == q.session_id.getD []) &&
  (!truthyText q.event_type || r.hook_event_type == q.event_type.getD []) &&
  (!truthyText q.start_time || textLe (q.start_time.getD []) r.timestamp) &&
  (!truthyText q.end_time || textLe r.timestamp (q.end_time.getD [])) &&
  (!truthyText q.search || likeContains r.payload (q.search.getD []) ||
    (match r.summary with
     | some s => likeContains s (q.search.getD [])
     | none => false))

/-- The fragments `ObservabilityDatabase.getEvents` concatenates into its
SQL text, in concatenation order: each `sql += ...` of the source
contributes its fragment exactly when its query field is truthy. -/
def eventsSqlParts (q : EventsQuery) : List Text :=
  [("SELECT * FROM events WHERE 1=1").data]
  ++ (if truthyText q.source_app then [(" AND source_app = ?").data] else [])
  ++ (if truthyText q.session_id then [(" AND session_id = ?").data] else [])
  ++ (if truthyText q.event_type then [(" AND hook_event_type = ?").data] else [])
  ++ (if truthyText q.start_time then [(" AND timestamp >= ?").data] else [])
  ++ (if truthyText q.end_time then [(" AND timestamp <= ?").data] else [])
  ++ (if truthyText q.search then [(" AND (payload LIKE ? OR summary LIKE ?)").data] else [])
  ++ [(" ORDER BY created_at DESC").data]
  ++ (if truthyNum q.limit then [(" LIMIT ?").data] else [])
  ++ (if truthyNum q.offset then [(" OFFSET ?").data] else [])

/-- The SQL text assembled by `ObservabilityDatabase.getEvents`. -/
def eventsSql (q : EventsQuery) : Text := (eventsSqlParts q).flatten

/-- The single failure mode the embedding needs: SQLite refuses to prepare a
statement whose grammar is invalid. In the SQLite grammar `OFFSET` may only
follow `LIMIT`, so the statement `getEvents` assembles for a truthy `offset`
with a falsy `limit` fails to prepare. -/
inductive SqlError where
  | syntaxError
deriving Repr, DecidableEq

/-- Model of `ObservabilityDatabase.getEvents`. `ORDER BY created_at DESC`
is modelled as reversal of insertion order (valid because `created_at` is
assigned from the non-decreasing `CURRENT_TIMESTAMP` clock); `LIMIT l
OFFSET o` skips `o` rows then yields at most `l`; a clause is added only
when its query field is truthy. An `OFFSET` clause without a `LIMIT` clause
is a SQLite syntax error, surfaced as a rejected promise. -/
def getEvents (st : DBState) (q : EventsQuery) :
    Except SqlError (List DatabaseEvent) :=
  if truthyNum q.offset && !truthyNum q.limit then .error .syntaxError
  else
    let sorted := (st.rows.filter (rowMatches q)).reverse
    let afterOff := if truthyNum q.offset then sorted.drop (q.offset.getD 0) else sorted
    let paged := if truthyNum q.limit then afterOff.take (q.limit.getD 0) else afterOff
    .ok (paged.map formatEventRow)

/-- Model of `ObservabilityDatabase.clearOldEvents` (the retention sweep):
`DELETE FROM events WHERE created_at < datetime('now', '-N days')`, returning
`changes` (the number of deleted rows). The cutoff instant is `now` minus
`daysOld` days of seconds. -/
def clearOldEvents (st : DBState) (now daysOld : Nat) : Nat × DBState :=
  let cutoff := now - daysOld * 86400
  (st.rows.countP (fun r => decide (r.created_at < cutoff)),
   { st with rows := st.rows.filter (fun r => !decide (r.created_at < cutoff)) })

/-! ## The Ingestion Service and Broadcast Hub
(`ObservabilityServer`, `apps/data-processing/src/index.ts`) -/

/-- The request body of `POST /events`: any field may be absent. -/
structure CandidateEvent where
  source_app : Option Text := none
  session_id : Option Text := none
  hook_event_type : Option Text := none
  payload : Option JVal := none
  chat : Option JVal := none
  summary : Option Text := none
  timestamp : Option Text := none

/-- The responses the `POST /events` handler can produce. -/
inductive PostResponse where
  /-- 400, "Missing required fields: source_app, session_id, hook_event_type, payload". -/
  | badRequest
  /-- 201 with the stored event in `data`. -/
  | created (ev : DatabaseEvent)
  /-- 500, "Failed to store event". -/
  | serverError

/-- Model of the `POST /events` route handler (`setupRoutes`): rejects with
400 when any of `source_app`, `session_id`, `hook_event_type`, `payload` is
falsy (absent or empty); assigns `timestamp = new Date().toISOString()` when
the field is falsy; delegates to `insertEvent`; broadcasts (modelled
separately by `broadcastEvent`, which has no failure path into this
handler); answers 201 with the stored event, or 500 when the insert
rejects. -/
def postEvents (st : DBState) (nowIso : Text) (now : Nat) (e : CandidateEvent) :
    PostResponse × DBState :=
  if !truthyText e.source_app || !truthyText e.session_id
      || !truthyText e.hook_event_type || !jvTruthy e.payload then
    (.badRequest, st)
  else
    let ts := if truthyText e.timestamp then e.timestamp.getD [] else nowIso
    let he : HookEvent :=
      { source_app := e.source_app.getD []
        session_id := e.session_id.getD []
        hook_event_type := e.hook_event_type.getD []
        payload := e.payload.getD .jnull
        chat := e.chat
        summary := e.summary
        timestamp := ts }
    match insertEvent st now he with
    | (some ev, st') => (.created ev, st')
    | (none, st') => (.serverError, st')

/-- WebSocket ready states (the `ws` library constants). -/
inductive WsReadyState where
  | CONNECTING
  | OPEN
  | CLOSING
  | CLOSED
deriving Repr, DecidableEq

/-- One connected observer session as the hub sees it. `stalled` marks a
session whose send path never drains (the peer reads nothing); `outbox` is
the data handed to `client.send`, which the `ws` library buffers and
transmits asynchronously. -/
structure WsClient where
  id : Nat
  readyState : WsReadyState
  stalled : Bool
  outbox : List Text
deriving Repr, DecidableEq

/-- The hub state: `wss.clients`, the set of connected sessions. -/
structure WsServerState where
  clients : List WsClient

/-- One `client.send(messageStr)` call: on the `ws` library this is
non-blocking — it appends the frame to the connection's internal buffer and
returns, whether or not the peer ever drains it; it neither closes nor
removes a slow or stalled client. Clients not in `OPEN` are skipped by the
guard in `broadcastEvent`. -/
def sendTo (msg : Text) (c : WsClient) : WsClient :=
  if c.readyState = .OPEN then { c with outbox := c.outbox ++ [msg] } else c

/-- Model of `ObservabilityServer.broadcastEvent`: iterate `wss.clients` and
`send` to every client whose `readyState` is `OPEN`. The client set itself
is not modified: no session is dropped, closed, or transitioned by fan-out. -/
def broadcastEvent (st : WsServerState) (msg : Text) : WsServerState :=
  { clients := st.clients.map (sendTo msg) }

/-! ## The Resilient Client Connector
(`WebSocketService`, `apps/observability-dashboard/src/services/websocket.ts`) -/

/-- Field `maxReconnectAttempts = 10` of `WebSocketService`. -/
def maxReconnectAttempts : Nat := 10

/-- Field `baseReconnectDelay = 1000` of `WebSocketService`. Declared, but
never read: `scheduleReconnect` reads `this.reconnectDelay` instead. -/
def baseReconnectDelay : Nat := 1000

/-- Field `maxReconnectDelay = 30000` of `WebSocketService`. -/
def maxReconnectDelay : Nat := 30000

/-- Field `reconnectBackoffMultiplier = 1.5` of `WebSocketService`.
Declared, but never read: `scheduleReconnect` hardcodes factor 2. -/
def reconnectBackoffMultiplier : ℚ := 3 / 2

/-- Field `maxRetryCount = 3` of `WebSocketService` (queued messages). -/
def maxRetryCount : Nat := 3

/-- The close codes `shouldReconnect` refuses to reconnect after. -/
def noReconnectCodes : List Nat := [1000, 1001, 1005, 4000, 4001, 4002, 4003]

/-- The close code `startHeartbeat` passes to `connection.close` on a
heartbeat timeout (`'Heartbeat timeout'`). -/
def heartbeatCloseCode : Nat := 4000

/-- A message buffered while the connection is not open (`QueuedMessage` in
`websocket.ts`): payload plus its retry count. -/
structure QueuedMessage where
  message : Text
  retryCount : Nat
deriving Repr, DecidableEq

/-- An entry of the transcript of what the connector hands to
`connection.send`: a re-issued subscription, or an application message. -/
inductive OutMsg where
  | subscribeMsg (eventType : Text)
  | appMsg (m : Text)
deriving Repr, DecidableEq

/-- The connector state (the mutable fields of `WebSocketService` the
embedded operations touch). `reconnectDelay` is read by `scheduleReconnect`
and assigned by `resetReconnectAttempts`, but is never declared or
initialized in the class, so it starts out as the JavaScript `undefined`,
modelled as `none`. `sentLog` is the transcript of `connection.send` calls. -/
structure ConnectorState where
  reconnectAttempts : Nat := 0
  reconnectDelay : Option Nat := none
  isManualClose : Bool := false
  lastPongTime : Nat := 0
  connectionOpen : Bool := false
  messageQueue : List QueuedMessage := []
  subscriptions : List Text := []
  sentLog : List OutMsg := []

/-- Model of `WebSocketService.shouldReconnect`: reconnect unless the close
code is in the fixed no-reconnect list or the attempt budget is spent. -/
def shouldReconnect (st : ConnectorState) (closeCode : Nat) : Bool :=
  !(noReconnectCodes.contains closeCode)
    && st.reconnectAttempts < maxReconnectAttempts

/-- The reconnect decision of the `onclose` handler
(`setupEventListeners`): schedule a reconnect unless the close was manual
or `shouldReconnect` refuses the code. -/
def oncloseSchedulesReconnect (st : ConnectorState) (closeCode : Nat) : Bool :=
  !st.isManualClose && shouldReconnect st closeCode

/-- One firing of the `startHeartbeat` interval while a connection exists:
when the socket is `OPEN` it sends a ping, and if no pong arrived within the
30000 ms window it calls `connection.close(4000, 'Heartbeat timeout')`.
Result: (ping sent?, close code of a forced close, if any). -/
def heartbeatTick (st : ConnectorState) (nowMs : Nat) : Bool × Option Nat :=
  if st.connectionOpen then
    (true,
     if nowMs - st.lastPongTime > 30000 then some heartbeatCloseCode else none)
  else (false, none)

/-- The outcome of `scheduleReconnect`: either no timer is armed, or a timer
is armed with the computed delay; a `none` delay models the `NaN` that
`undefined * Math.pow(2, k)` produces (which `setTimeout` treats as 0). -/
inductive ScheduleResult where
  | noRetry
  | retryAfter (delay : Option Nat)
deriving Repr, DecidableEq

/-- Model of `WebSocketService.scheduleReconnect`: refuse once the attempt
budget is spent; otherwise increment the counter and arm a timer for
`Math.min(this.reconnectDelay * Math.pow(2, attempts - 1), 30000)` — `NaN`
(modelled `none`) whenever `this.reconnectDelay` is still `undefined`. -/
def scheduleReconnect (st : ConnectorState) : ScheduleResult × ConnectorState :=
  if st.reconnectAttempts ≥ maxReconnectAttempts then (.noRetry, st)
  else
    let st' := { st with reconnectAttempts := st.reconnectAttempts + 1 }
    let delay : Option Nat :=
      match st.reconnectDelay with
      | none => none
      | some d => some (min (d * 2 ^ (st'.reconnectAttempts - 1)) maxReconnectDelay)
    (.retryAfter delay, st')

/-- Model of `WebSocketService.resetReconnectAttempts` (a public method the
open handler does NOT call): zeroes the counter and sets
`this.reconnectDelay = 1000`, the only assignment that field ever gets. -/
def resetReconnectAttempts (st : ConnectorState) : ConnectorState :=
  { st with reconnectAttempts := 0, reconnectDelay := some 1000 }

/-- Modelled from the spec: `resubscribeAll` is invoked by the `onopen`
handler in `websocket.ts`, but its body is not among the sources. Spec §4.4:
on a successful handshake the connector "resubscribes to all previously
active subscriptions" — it re-issues a subscribe message for every tracked
subscription, oldest first. -/
def resubscribeAll (st : ConnectorState) : ConnectorState :=
  { st with sentLog := st.sentLog ++ st.subscriptions.map OutMsg.subscribeMsg }

/-- Modelled from the spec: `processMessageQueue` is invoked by the `onopen`
handler in `websocket.ts`, but its body is not among the sources. Spec §4.4:
the connector "flushes any queued outbound messages (oldest first, dropping
messages that have exceeded a maximum retry count)". -/
def processMessageQueue (st : ConnectorState) : ConnectorState :=
  { st with
    sentLog := st.sentLog
      ++ (st.messageQueue.filter (fun m => m.retryCount ≤ maxRetryCount)).map
          (fun m => OutMsg.appMsg m.message)
    messageQueue := [] }

/-- Model of the `onopen` handler (`setupEventListeners`): zeroes the retry
counter, marks the connection open, re-subscribes, then flushes the queue.
It touches no backoff variable: `reconnectDelay` is left as it was. -/
def onOpen (st : ConnectorState) : ConnectorState :=
  processMessageQueue (resubscribeAll
    { st with reconnectAttempts := 0, connectionOpen := true })

/-- The delay the next `scheduleReconnect` would compute in a given state
(the "current backoff delay" as a function of the state). -/
def nextComputedDelay (st : ConnectorState) : Option Nat :=
  match st.reconnectDelay with
  | none => none
  | some d => some (min (d * 2 ^ st.reconnectAttempts) maxReconnectDelay)

/-! ## Claims about the Event Store maintenance and pagination -/

/-- C5: `retentionSweep` is idempotent. The first `clearOldEvents` call
removes exactly the rows strictly older than the cutoff — every older row is
gone, every other row survives, nothing new appears, and the returned count
is exactly the number of removed rows; an immediate second call with the
same cutoff removes nothing, returns zero, and leaves the state unchanged. -/
theorem clearOldEvents_idempotent (st : DBState) (now daysOld : Nat) :
    (∀ r ∈ st.rows, r.created_at < now - daysOld * 86400 →
      r ∉ (clearOldEvents st now daysOld).2.rows)
    ∧ (∀ r ∈ st.rows, ¬r.created_at < now - daysOld * 86400 →
      r ∈ (clearOldEvents st now daysOld).2.rows)
    ∧ (∀ r ∈ (clearOldEvents st now daysOld).2.rows, r ∈ st.rows)
    ∧ (clearOldEvents st now daysOld).1
        + (clearOldEvents st now daysOld).2.rows.length = st.rows.length
    ∧ clearOldEvents (clearOldEvents st now daysOld).2 now daysOld
        = (0, (clearOldEvents st now daysOld).2) := by
  refine ⟨?_, ?_, ?_, ?_, ?_⟩
  · intro r _ hold hmem
    simp only [clearOldEvents, List.mem_filter] at hmem
    simp [hold] at hmem
  · intro r hr hnew
    simp only [clearOldEvents, List.mem_filter]
    simp [hr, hnew]
  · intro r hr
    simp only [clearOldEvents, List.mem_filter] at hr
    exact hr.1
  · simp only [clearOldEvents, List.countP_eq_length_filter]
    exact (List.length_eq_length_filter_add
      (fun r : EventRow => decide (r.created_at < now - daysOld * 86400))).symm
  · have hcount : (clearOldEvents st now daysOld).2.rows.countP
        (fun r => decide (r.created_at < now - daysOld * 86400)) = 0 := by
      rw [List.countP_eq_zero]
      intro r hr
      simp only [clearOldEvents, List.mem_filter] at hr
      simpa using hr.2
    have hfilter : (clearOldEvents st now daysOld).2.rows.filter
        (fun r => !decide (r.created_at < now - daysOld * 86400))
          = (clearOldEvents st now daysOld).2.rows := by
      apply List.filter_eq_self.mpr
      intro r hr
      simp only [clearOldEvents, List.mem_filter] at hr
      exact hr.2
    simp only [clearOldEvents] at hcount hfilter ⊢
    rw [hcount, hfilter]

/-- C10: a query with a truthy (positive) `offset` and no truthy `limit`
makes `getEvents` assemble a statement with an `OFFSET` clause and no
`LIMIT` clause, which SQLite refuses to prepare: the call fails with an
error for every store state, so offset-only pagination is rejected rather
than answered. -/
theorem getEvents_offset_requires_limit (q : EventsQuery)
    (hoff : truthyNum q.offset = true) (hlim : truthyNum q.limit = false) :
    (∀ st : DBState, getEvents st q = .error .syntaxError)
    ∧ (" OFFSET ?").data ∈ eventsSqlParts q
    ∧ (" LIMIT ?").data ∉ eventsSqlParts q := by
  refine ⟨?_, ?_, ?_⟩
  · intro st
    simp [getEvents, hoff, hlim]
  · simp [eventsSqlParts, hoff, hlim]
  · simp only [eventsSqlParts, hoff, hlim, if_true, if_false, List.mem_append,
      List.mem_singleton]
    split_ifs <;> simp_all

/-- C10 witness: `?offset=10` with no `limit` (the handler passes
`offset = 10`, `limit = undefined`) errors on the empty store, and its
statement has the `OFFSET` fragment and no `LIMIT` fragment. -/
theorem getEvents_offset_requires_limit_witness :
    getEvents {} { offset := some 10 } = .error .syntaxError
    ∧ (" OFFSET ?").data ∈ eventsSqlParts { offset := some 10 }
    ∧ (" LIMIT ?").data ∉ eventsSqlParts { offset := some 10 } := by
  have h := getEvents_offset_requires_limit { offset := some 10 } (by decide) (by decide)
  exact ⟨h.1 {}, h.2.1, h.2.2⟩

/-! ## Claims about the connector's reconnect and heartbeat logic -/

/-- C9: the backoff delay is not the declared floor times a power of the
backoff factor. On a fresh `WebSocketService` (where `this.reconnectDelay`
was never assigned, since the field is not declared or initialized in the
class), the first `scheduleReconnect` arms a timer with a `NaN` delay
(`undefined * Math.pow(2, 0)`), not with the declared
`baseReconnectDelay = 1000`. The attempt-budget half of the claim does hold:
at `maxReconnectAttempts` the method arms no timer. Once
`resetReconnectAttempts` has initialized the delay base, the armed delay is
`min (1000 * 2 ^ (k - 1)) 30000` — a factor of 2, not the declared
`reconnectBackoffMultiplier = 1.5`. -/
theorem scheduleReconnect_initial_NaN :
    (scheduleReconnect {}).1 = ScheduleResult.retryAfter none
    ∧ ScheduleResult.retryAfter (none : Option Nat)
        ≠ ScheduleResult.retryAfter (some baseReconnectDelay)
    ∧ (scheduleReconnect { reconnectAttempts := maxReconnectAttempts }).1
        = ScheduleResult.noRetry
    ∧ (scheduleReconnect (resetReconnectAttempts {})).1
        = ScheduleResult.retryAfter
            (some (min (baseReconnectDelay * 2 ^ 0) maxReconnectDelay)) := by
  refine ⟨rfl, by decide, rfl, rfl⟩

/-- C7: the heartbeat fires while `Open` and force-closes on a stale pong,
but the close does NOT schedule a reconnection. With the connection open and
the last pong 30001 ms in the past, the heartbeat tick sends a ping and
calls `connection.close(4000)`; the `onclose` handler then consults
`shouldReconnect 4000`, which is `false` because 4000 sits in
`noReconnectCodes` — even though the attempt budget (0 of 10) is untouched
and the close was not manual. No automatic reconnection follows a heartbeat
timeout. -/
theorem heartbeatTimeout_suppresses_reconnect :
    heartbeatTick { connectionOpen := true, lastPongTime := 0 } 30001
        = (true, some heartbeatCloseCode)
    ∧ heartbeatCloseCode ∈ noReconnectCodes
    ∧ shouldReconnect { connectionOpen := true, lastPongTime := 0 }
        heartbeatCloseCode = false
    ∧ oncloseSchedulesReconnect { connectionOpen := true, lastPongTime := 0 }
        heartbeatCloseCode = false
    ∧ (ConnectorState.reconnectAttempts { connectionOpen := true, lastPongTime := 0 }
        < maxReconnectAttempts
      ∧ ConnectorState.isManualClose { connectionOpen := true, lastPongTime := 0 } = false) := by
  refine ⟨rfl, by decide, by decide, by decide, by decide, rfl⟩

/-! ## Claims about the Broadcast Hub fan-out -/

/-- A hub with three `OPEN` observer sessions, the second of which has a
permanently stalled send path. -/
def hub3 : WsServerState :=
  { clients :=
      [ { id := 1, readyState := .OPEN, stalled := false, outbox := [] },
        { id := 2, readyState := .OPEN, stalled := true, outbox := [] },
        { id := 3, readyState := .OPEN, stalled := false, outbox := [] } ] }

/-- C6 counterexample: fan-out of one event over `hub3` hands the message to
all three sessions (the `ws` `send` buffers it even for the stalled one) and
leaves the session set untouched — the stalled session is NOT removed and
NOT transitioned to `Closing`/`Closed`: it is still present, still `OPEN`,
still marked stalled. -/
theorem broadcastEvent_keeps_stalled_session :
    ((broadcastEvent hub3 ['e']).clients.map WsClient.id = [1, 2, 3])
    ∧ ((broadcastEvent hub3 ['e']).clients.map WsClient.readyState
        = [.OPEN, .OPEN, .OPEN])
    ∧ ((broadcastEvent hub3 ['e']).clients.map WsClient.stalled
        = [false, true, false])
    ∧ ((broadcastEvent hub3 ['e']).clients.map WsClient.outbox
        = [[['e']], [['e']], [['e']]])
    ∧ (WsReadyState.OPEN ≠ WsReadyState.CLOSED) := by
  refine ⟨rfl, rfl, rfl, rfl, by decide⟩

/-- C6 as amended: `broadcastEvent` attempts a send to every `OPEN` session
and to no other; each send is buffered independently, so a stalled session
cannot stall delivery to the others; and the fan-out performs no state
transition and no removal — session ids and ready states are exactly those
of the input set, stalled or not. -/
theorem broadcastEvent_delivers_to_open (st : WsServerState) (msg : Text) :
    ((broadcastEvent st msg).clients.map WsClient.id = st.clients.map WsClient.id)
    ∧ ((broadcastEvent st msg).clients.map WsClient.readyState
        = st.clients.map WsClient.readyState)
    ∧ (∀ c ∈ st.clients, c.readyState = .OPEN →
        { c with outbox := c.outbox ++ [msg] } ∈ (broadcastEvent st msg).clients)
    ∧ (∀ c ∈ st.clients, c.readyState ≠ .OPEN →
        c ∈ (broadcastEvent st msg).clients) := by
  refine ⟨?_, ?_, ?_, ?_⟩
  · simp only [broadcastEvent, List.map_map]
    apply List.map_congr_left
    intro c _
    simp only [Function.comp_apply, sendTo]
    split <;> rfl
  · simp only [broadcastEvent, List.map_map]
    apply List.map_congr_left
    intro c _
    simp only [Function.comp_apply, sendTo]
    split <;> rfl
  · intro c hc hopen
    have : sendTo msg c = { c with outbox := c.outbox ++ [msg] } := by
      simp [sendTo, hopen]
    exact this ▸ List.mem_map_of_mem (sendTo msg) hc
  · intro c hc hnot
    have : sendTo msg c = c := by
      simp [sendTo, hnot]
    exact this ▸ List.mem_map_of_mem (sendTo msg) hc

/-- C6 amended witness: on `hub3`, the two healthy sessions and the stalled
one all receive the broadcast within the fan-out call, and the non-`OPEN`
case is exercised on a one-client `CLOSED` hub. -/
theorem broadcastEvent_delivers_to_open_witness :
    ({ id := 1, readyState := .OPEN, stalled := false, outbox := [[['e']]].flatten }
        ∈ (broadcastEvent hub3 ['e']).clients)
    ∧ ({ id := 4, readyState := WsReadyState.CLOSED, stalled := false, outbox := [] }
        ∈ (broadcastEvent
            { clients := [{ id := 4, readyState := .CLOSED, stalled := false, outbox := [] }] }
            ['e']).clients) := by
  constructor
  · exact (broadcastEvent_delivers_to_open hub3 ['e']).2.2.1
      { id := 1, readyState := .OPEN, stalled := false, outbox := [] }
      (by decide) rfl
  · exact (broadcastEvent_delivers_to_open
        { clients := [{ id := 4, readyState := .CLOSED, stalled := false, outbox := [] }] }
        ['e']).2.2.2
      { id := 4, readyState := .CLOSED, stalled := false, outbox := [] }
      (by decide) (by decide)

/-! ## Claims about insertion and the ingestion endpoint -/

/-- Looking up the freshly inserted id finds the appended row, provided all
earlier ids are smaller (the `AUTOINCREMENT` invariant). -/
theorem find?_append_new (rows : List EventRow) (row : EventRow) (n : Nat)
    (hids : ∀ r ∈ rows, r.id < n) (hrow : row.id = n) :
    (rows ++ [row]).find? (fun r => r.id == n) = some row := by
  induction rows with
  | nil => simp [List.find?, hrow]
  | cons r rs ih =>
    have hne : (r.id == n) = false := by
      have := hids r (by simp)
      simp only [beq_eq_false_iff_ne]
      omega
    simp only [List.cons_append, List.find?, hne]
    exact ih (fun x hx => hids x (by simp [hx]))

/-- A candidate with empty `source_app` and `session_id` and an event type
outside the six-member enumeration. -/
def unvalidatedEvent : HookEvent :=
  { source_app := []
    session_id := []
    hook_event_type := ['b', 'o', 'g', 'u', 's']
    payload := .jobj []
    timestamp := ['t'] }

/-- C4 counterexample: the store-level insert of an event whose `source_app`
and `session_id` are empty and whose event type is outside the fixed
enumeration does NOT fail — it persists the row verbatim and returns the
stored event. (The repository's own test, "should handle invalid event data
gracefully", asserts exactly this non-failure.) -/
theorem insertEvent_unvalidated_cex :
    (['b', 'o', 'g', 'u', 's'] ∉ hookEventTypes)
    ∧ ((insertEvent {} 5 unvalidatedEvent).1.isSome = true)
    ∧ ((insertEvent {} 5 unvalidatedEvent).2.rows.map EventRow.source_app = [[]])
    ∧ ((insertEvent {} 5 unvalidatedEvent).2.rows.map EventRow.hook_event_type
        = [['b', 'o', 'g', 'u', 's']]) := by
  refine ⟨by decide, rfl, rfl, rfl⟩

/-- Appending a row whose id satisfies the search finds some row. -/
theorem exists_find?_append (rows : List EventRow) (row : EventRow) (n : Nat)
    (h : row.id = n) :
    ∃ r, (rows ++ [row]).find? (fun r => r.id == n) = some r := by
  have hsome : ((rows ++ [row]).find? (fun r => r.id == n)).isSome = true := by
    rw [List.find?_isSome]
    exact ⟨row, by simp, by simp [h]⟩
  exact Option.isSome_iff_exists.mp hsome

/-- C4 as amended: the Event Store performs no validation at all — for every
candidate, empty or out-of-enumeration fields included, `insertEvent`
returns a stored event and appends one row carrying the fields verbatim;
the only required-field validation in the pipeline is the ingestion
endpoint's falsy-field check, which 400-rejects a candidate whose
`source_app` (or `session_id`, or `hook_event_type`) is absent or empty
without touching the store. -/
theorem insertEvent_no_validation :
    (∀ (st : DBState) (now : Nat) (e : HookEvent),
      ∃ ev, (insertEvent st now e).1 = some ev
        ∧ ∃ r, (insertEvent st now e).2.rows = st.rows ++ [r]
          ∧ r.source_app = e.source_app ∧ r.session_id = e.session_id
          ∧ r.hook_event_type = e.hook_event_type)
    ∧ (∀ (st : DBState) (nowIso : Text) (now : Nat) (e : CandidateEvent),
        truthyText e.source_app = false →
        postEvents st nowIso now e = (.badRequest, st)) := by
  constructor
  · intro st now e
    obtain ⟨r0, hr0⟩ := exists_find?_append st.rows _ st.nextId
      (rfl : ({ id := st.nextId
                source_app := e.source_app
                session_id := e.session_id
                hook_event_type := e.hook_event_type
                payload := stringifyV e.payload
                chat := match e.chat with
                  | some c => if jvTruthy (some c) then some (stringifyV c) else none
                  | none => none
                summary := orNull e.summary
                timestamp := e.timestamp
                created_at := now
                updated_at := now : EventRow }).id = st.nextId)
    exact ⟨formatEventRow r0, by simp [insertEvent, hr0], _, rfl, rfl, rfl, rfl⟩
  · intro st nowIso now e hfalsy
    simp [postEvents, hfalsy]

/-- C4 amended witness: the unvalidated event is accepted by the store on a
store with one existing row, while the endpoint 400-rejects a candidate
whose `source_app` is the empty string, leaving the store untouched. -/
theorem insertEvent_no_validation_witness :
    (∃ ev, (insertEvent (insertEvent {} 5 unvalidatedEvent).2 6 unvalidatedEvent).1
        = some ev
      ∧ ∃ r, (insertEvent (insertEvent {} 5 unvalidatedEvent).2 6 unvalidatedEvent).2.rows
          = (insertEvent {} 5 unvalidatedEvent).2.rows ++ [r]
        ∧ r.source_app = unvalidatedEvent.source_app
        ∧ r.session_id = unvalidatedEvent.session_id
        ∧ r.hook_event_type = unvalidatedEvent.hook_event_type)
    ∧ postEvents {} ['n'] 7
        { source_app := some []
          session_id := some ['s']
          hook_event_type := some ['S', 't', 'o', 'p']
          payload := some (.jobj []) }
      = (.badRequest, {}) := by
  exact ⟨insertEvent_no_validation.1 (insertEvent {} 5 unvalidatedEvent).2 6 unvalidatedEvent,
    insertEvent_no_validation.2 {} ['n'] 7 _ rfl⟩

/-- Under the `AUTOINCREMENT` invariant (every stored id is below `nextId`),
`insertEvent` appends exactly one row carrying the candidate's fields and
the store-assigned `id`/`created_at`/`updated_at`, and returns that row,
formatted. -/
theorem insertEvent_spec (st : DBState) (now : Nat) (e : HookEvent)
    (hids : ∀ r ∈ st.rows, r.id < st.nextId) :
    ∃ r : EventRow, r.id = st.nextId ∧ r.source_app = e.source_app
      ∧ r.session_id = e.session_id ∧ r.hook_event_type = e.hook_event_type
      ∧ r.payload = stringifyV e.payload ∧ r.timestamp = e.timestamp
      ∧ r.created_at = now ∧ r.updated_at = now
      ∧ insertEvent st now e
          = (some (formatEventRow r), { rows := st.rows ++ [r], nextId := st.nextId + 1 }) := by
  refine ⟨{ id := st.nextId
            source_app := e.source_app
            session_id := e.session_id
            hook_event_type := e.hook_event_type
            payload := stringifyV e.payload
            chat := match e.chat with
              | some c => if jvTruthy (some c) then some (stringifyV c) else none
              | none => none
            summary := orNull e.summary
            timestamp := e.timestamp
            created_at := now
            updated_at := now }, rfl, rfl, rfl, rfl, rfl, rfl, rfl, rfl, ?_⟩
  simp only [insertEvent]
  rw [find?_append_new st.rows _ st.nextId hids rfl]
  rfl

/-- C2: payload round-trip through the store. For every candidate whose
`payload` is a structured value, inserting and then reading back — both
through the event `insertEvent` itself returns and through `getEventById`
on the new id — yields exactly the payload supplied. -/
theorem insertEvent_payload_roundTrip (st : DBState) (now : Nat) (e : HookEvent)
    (hids : ∀ r ∈ st.rows, r.id < st.nextId) :
    ∃ ev st', insertEvent st now e = (some ev, st')
      ∧ ev.payload = some e.payload
      ∧ getEventById st' st.nextId = some ev
      ∧ (getEventById st' st.nextId).bind DatabaseEvent.payload = some e.payload := by
  obtain ⟨r, hid, _, _, _, hpl, _, _, _, heq⟩ := insertEvent_spec st now e hids
  refine ⟨formatEventRow r, _, heq, ?_, ?_, ?_⟩
  · simp [formatEventRow, hpl, parseJson_stringifyV]
  · simp only [getEventById]
    rw [find?_append_new st.rows r st.nextId hids hid]
    rfl
  · simp only [getEventById]
    rw [find?_append_new st.rows r st.nextId hids hid]
    simp [formatEventRow, hpl, parseJson_stringifyV]

/-- A deeply nested payload with unicode strings, empty strings, empty keys,
`null`s, escapes and negative numbers, exercising the round-trip. -/
def deepPayload : JVal :=
  .jobj [(['α', 'β'], .jarr [.jstr [], .jnull,
            .jobj [([], .jstr ['❤', '字']), (['n'], .jint (-42))]]),
         (['q'], .jstr ['a', '"', '\\', '\n', 'z']),
         (['k'], .jarr [])]

/-- C2 witness: the deep unicode payload round-trips byte-for-byte through
an insert into the empty store followed by `getEventById`. -/
theorem insertEvent_payload_roundTrip_witness :
    ∃ ev st', insertEvent {} 3
        { source_app := ['a'], session_id := ['s'],
          hook_event_type := ['S', 't', 'o', 'p'],
          payload := deepPayload, timestamp := ['t'] } = (some ev, st')
      ∧ ev.payload = some deepPayload
      ∧ getEventById st' 1 = some ev
      ∧ (getEventById st' 1).bind DatabaseEvent.payload = some deepPayload :=
  insertEvent_payload_roundTrip {} 3
    { source_app := ['a'], session_id := ['s'],
      hook_event_type := ['S', 't', 'o', 'p'],
      payload := deepPayload, timestamp := ['t'] }
    (by simp)

/-- C1: the `POST /events` contract. A candidate with truthy `source_app`,
`session_id`, `hook_event_type` and `payload` is stored through `insertEvent`
and answered 201 with the stored event — store-assigned `id` and
`created_at`/`updated_at`, the caller's fields verbatim, and `timestamp`
defaulted to the current time exactly when the candidate carried none; one
row is appended. A candidate missing any of the four mandatory fields is
answered 400 and the store is untouched. -/
theorem postEvents_contract :
    (∀ (st : DBState) (nowIso : Text) (now : Nat) (e : CandidateEvent),
      truthyText e.source_app = true → truthyText e.session_id = true →
      truthyText e.hook_event_type = true → jvTruthy e.payload = true →
      (∀ r ∈ st.rows, r.id < st.nextId) →
      ∃ ev st', postEvents st nowIso now e = (.created ev, st')
        ∧ ev.id = st.nextId ∧ ev.created_at = now ∧ ev.updated_at = now
        ∧ ev.source_app = e.source_app.getD []
        ∧ ev.session_id = e.session_id.getD []
        ∧ ev.hook_event_type = e.hook_event_type.getD []
        ∧ ev.payload = some (e.payload.getD .jnull)
        ∧ ev.timestamp = (if truthyText e.timestamp then e.timestamp.getD [] else nowIso)
        ∧ st'.rows.length = st.rows.length + 1)
    ∧ (∀ (st : DBState) (nowIso : Text) (now : Nat) (e : CandidateEvent),
        (e.source_app = none ∨ e.session_id = none ∨ e.hook_event_type = none
          ∨ e.payload = none) →
        postEvents st nowIso now e = (.badRequest, st)) := by
  constructor
  · intro st nowIso now e h1 h2 h3 h4 hids
    obtain ⟨r, hid, hsa, hsi, hty, hpl, hts, hca, hua, heq⟩ := insertEvent_spec st now
      { source_app := e.source_app.getD []
        session_id := e.session_id.getD []
        hook_event_type := e.hook_event_type.getD []
        payload := e.payload.getD .jnull
        chat := e.chat
        summary := e.summary
        timestamp := if truthyText e.timestamp then e.timestamp.getD [] else nowIso }
      hids
    refine ⟨formatEventRow r, { rows := st.rows ++ [r], nextId := st.nextId + 1 }, ?_,
      ?_, ?_, ?_, ?_, ?_, ?_, ?_, ?_, by simp⟩
    · simp only [postEvents, h1, h2, h3, h4, heq]
      simp
    · simp [formatEventRow, hid]
    · simp [formatEventRow, hca]
    · simp [formatEventRow, hua]
    · simp [formatEventRow, hsa]
    · simp [formatEventRow, hsi]
    · simp [formatEventRow, hty]
    · simp [formatEventRow, hpl, parseJson_stringifyV]
    · simp [formatEventRow, hts]
  · intro st nowIso now e h
    rcases h with h | h | h | h <;> simp [postEvents, h, truthyText, jvTruthy]

/-- C1 witness: a complete candidate without a timestamp is stored with the
server-assigned time and answered 201; a candidate missing its payload is
answered 400 on the same store. -/
theorem postEvents_contract_witness :
    (∃ ev st', postEvents {} ['n', 'o', 'w'] 9
        { source_app := some ['a'], session_id := some ['s'],
          hook_event_type := some ['S', 't', 'o', 'p'],
          payload := some (.jobj [(['k'], .jstr ['v'])]) } = (.created ev, st')
      ∧ ev.id = (1 : Nat) ∧ ev.created_at = 9 ∧ ev.updated_at = 9
      ∧ ev.source_app = (some ['a'] : Option Text).getD []
      ∧ ev.session_id = (some ['s'] : Option Text).getD []
      ∧ ev.hook_event_type = (some ['S', 't', 'o', 'p'] : Option Text).getD []
      ∧ ev.payload = some ((some (JVal.jobj [(['k'], .jstr ['v'])]) : Option JVal).getD .jnull)
      ∧ ev.timestamp = (if truthyText none then (none : Option Text).getD [] else ['n', 'o', 'w'])
      ∧ st'.rows.length = (({} : DBState)).rows.length + 1)
    ∧ postEvents {} ['n', 'o', 'w'] 9
        { source_app := some ['a'], session_id := some ['s'],
          hook_event_type := some ['S', 't', 'o', 'p'] } = (.badRequest, {}) := by
  constructor
  · exact postEvents_contract.1 {} ['n', 'o', 'w'] 9
      { source_app := some ['a'], session_id := some ['s'],
        hook_event_type := some ['S', 't', 'o', 'p'],
        payload := some (.jobj [(['k'], .jstr ['v'])]) }
      rfl rfl rfl rfl (by simp)
  · exact postEvents_contract.2 {} ['n', 'o', 'w'] 9 _ (Or.inr (Or.inr (Or.inr rfl)))

/-! ## Claims about querying -/

/-- The event type `PreToolUse`. -/
def tyPre : Text := ['P', 'r', 'e', 'T', 'o', 'o', 'l', 'U', 's', 'e']
/-- The event type `PostToolUse`. -/
def tyPost : Text := ['P', 'o', 's', 't', 'T', 'o', 'o', 'l', 'U', 's', 'e']
/-- The event type `Stop`. -/
def tyStop : Text := ['S', 't', 'o', 'p']

/-- A minimal valid candidate event for the query scenario. -/
def demoEvent (app ty ts : Text) : HookEvent :=
  { source_app := app, session_id := ['s'], hook_event_type := ty,
    payload := .jobj [], timestamp := ts }

/-- The store after inserting, in order: an `A`/`PreToolUse` event at tick 1,
a `B`/`PostToolUse` event at tick 2, an `A`/`Stop` event at tick 3. -/
def demoStore : DBState :=
  (insertEvent
    (insertEvent
      (insertEvent {} 1 (demoEvent ['A'] tyPre ['1'])).2
      2 (demoEvent ['B'] tyPost ['2'])).2
    3 (demoEvent ['A'] tyStop ['3'])).2

/-- C3 counterexample: a supplied limit of `0` is falsy, so `getEvents` adds
no `LIMIT` clause at all and returns every matching event — on the
three-event store the result has length 3, not at most the supplied
limit 0. -/
theorem getEvents_limit_zero_cex :
    truthyNum (some 0) = false
    ∧ (getEvents demoStore { limit := some 0 }).map List.length = Except.ok 3
    ∧ ¬((3 : Nat) ≤ 0) := by
  refine ⟨rfl, rfl, by omega⟩

/-- `formatEventRow` keeps `created_at`. -/
theorem formatEventRow_created_at (r : EventRow) :
    (formatEventRow r).created_at = r.created_at := rfl

/-- Rows surviving the WHERE clauses, newest first, are sorted by descending
`created_at` whenever the store's rows have non-decreasing `created_at`. -/
theorem filtered_reverse_sorted (st : DBState) (q : EventsQuery)
    (hord : st.rows.Pairwise (fun a b => a.created_at ≤ b.created_at)) :
    ((st.rows.filter (rowMatches q)).reverse).Pairwise
      (fun a b => b.created_at ≤ a.created_at) :=
  List.pairwise_reverse.mpr (hord.filter _)

/-- C3 as amended: whenever `getEvents` answers (and the store's
`created_at` values are non-decreasing in insertion order, as the
`CURRENT_TIMESTAMP` clock guarantees), the answer is sorted newest-first by
`created_at`; a truthy (positive) limit bounds its length; and with no
truthy limit or offset it consists of exactly the stored events matching
every truthy filter field — equality filters, the timestamp range, and the
free-text search as genuine SQLite `LIKE '%term%'` in which the term's `%`
and `_` wildcards are live and matching folds ASCII case. A limit of `0` is falsy — treated as "no LIMIT
clause" rather than as a bound (see the counterexample). In particular, on
the `A`,`B`,`A` scenario store, filtering on `source_app = "A"` returns
exactly the two `A` events, the `Stop` one (tick 3) first. -/
theorem getEvents_query_spec :
    (∀ (st : DBState) (q : EventsQuery) (evs : List DatabaseEvent),
      st.rows.Pairwise (fun a b => a.created_at ≤ b.created_at) →
      getEvents st q = .ok evs →
      (evs.Pairwise (fun a b => b.created_at ≤ a.created_at)
        ∧ (truthyNum q.limit = true → evs.length ≤ q.limit.getD 0)
        ∧ (truthyNum q.limit = false → truthyNum q.offset = false →
            ∀ ev, ev ∈ evs ↔ ∃ r ∈ st.rows, rowMatches q r = true ∧ ev = formatEventRow r)))
    ∧ (getEvents demoStore { source_app := some ['A'] }).map
        (List.map (fun ev => (ev.source_app, ev.hook_event_type, ev.created_at)))
      = Except.ok [(['A'], tyStop, 3), (['A'], tyPre, 1)] := by
  constructor
  · intro st q evs hord hok
    have hsorted := filtered_reverse_sorted st q hord
    by_cases ho : truthyNum q.offset = true
    · by_cases hl : truthyNum q.limit = true
      · simp only [getEvents, ho, hl, Bool.not_true, Bool.and_false, Bool.false_eq_true,
          if_false, Except.ok.injEq] at hok
        subst hok
        refine ⟨?_, ?_, ?_⟩
        · refine List.pairwise_map.mpr (List.Pairwise.sublist ?_ hsorted)
          exact (List.take_sublist _ _).trans (List.drop_sublist _ _)
        · intro _
          simp only [List.length_map]
          exact List.length_take_le _ _
        · intro hfalse
          rw [hl] at hfalse
          exact absurd hfalse (by simp)
      · simp only [Bool.not_eq_true] at hl
        simp [getEvents, ho, hl] at hok
    · simp only [Bool.not_eq_true] at ho
      by_cases hl : truthyNum q.limit = true
      · simp only [getEvents, ho, hl, Bool.false_and, Bool.false_eq_true, if_false,
          Except.ok.injEq] at hok
        subst hok
        refine ⟨?_, ?_, ?_⟩
        · exact List.pairwise_map.mpr (List.Pairwise.sublist (List.take_sublist _ _) hsorted)
        · intro _
          simp only [List.length_map]
          exact List.length_take_le _ _
        · intro hfalse
          rw [hl] at hfalse
          exact absurd hfalse (by simp)
      · simp only [Bool.not_eq_true] at hl
        simp only [getEvents, ho, hl, Bool.false_and, Bool.false_eq_true, if_false,
          Except.ok.injEq] at hok
        subst hok
        refine ⟨List.pairwise_map.mpr hsorted, ?_, ?_⟩
        · intro hfalse
          rw [hl] at hfalse
          exact absurd hfalse (by simp)
        · intro _ _ ev
          constructor
          · intro hev
            obtain ⟨r, hr, hfr⟩ := List.mem_map.mp hev
            rw [List.mem_reverse, List.mem_filter] at hr
            exact ⟨r, hr.1, hr.2, hfr.symm⟩
          · rintro ⟨r, hr, hmatch, rfl⟩
            exact List.mem_map_of_mem _ (List.mem_reverse.mpr (List.mem_filter.mpr ⟨hr, hmatch⟩))
  · rfl

/-- C3 amended witness: on the scenario store the filtered query answers,
sorted newest-first, and its membership is exactly the matching rows. -/
theorem getEvents_query_spec_witness :
    ∃ evs, getEvents demoStore { source_app := some ['A'] } = .ok evs
      ∧ evs.Pairwise (fun a b => b.created_at ≤ a.created_at)
      ∧ (∀ ev, ev ∈ evs ↔ ∃ r ∈ demoStore.rows,
          rowMatches { source_app := some ['A'] } r = true ∧ ev = formatEventRow r) := by
  refine ⟨_, rfl, ?_, ?_⟩
  · exact (getEvents_query_spec.1 demoStore { source_app := some ['A'] } _
      (by decide) rfl).1
  · exact (getEvents_query_spec.1 demoStore { source_app := some ['A'] } _
      (by decide) rfl).2.2 rfl rfl

/-! ## Claims about the open-transition of the connector -/

/-- C8 counterexample: on a fresh connector (where `this.reconnectDelay` was
never assigned) a successful handshake runs the `onopen` handler, after
which the delay the next `scheduleReconnect` would arm is still the `NaN`
of the uninitialized base — not the floor delay of 1000 ms. The handler
resets the retry counter but no backoff variable. -/
theorem onOpen_backoff_cex :
    nextComputedDelay (onOpen {}) = none
    ∧ (none : Option Nat) ≠ some baseReconnectDelay
    ∧ (onOpen {}).reconnectAttempts = 0 := by
  refine ⟨rfl, by decide, rfl⟩

/-- C8 as amended: the `onopen` handler zeroes the retry counter (so the
delay the backoff formula computes returns to the base value once the base
is initialized, though the handler itself resets no backoff variable and
leaves `reconnectDelay` untouched), re-issues every tracked subscription,
and then flushes the queued messages oldest-first in original order,
silently dropping exactly those whose retry count exceeded the maximum; the
queue is left empty. -/
theorem onOpen_spec (st : ConnectorState) :
    (onOpen st).reconnectAttempts = 0
    ∧ (onOpen st).reconnectDelay = st.reconnectDelay
    ∧ (st.reconnectDelay = some baseReconnectDelay →
        nextComputedDelay (onOpen st) = some baseReconnectDelay)
    ∧ (onOpen st).sentLog
        = st.sentLog ++ st.subscriptions.map OutMsg.subscribeMsg
            ++ (st.messageQueue.filter (fun m => m.retryCount ≤ maxRetryCount)).map
                (fun m => OutMsg.appMsg m.message)
    ∧ (onOpen st).messageQueue = [] := by
  refine ⟨rfl, rfl, ?_, ?_, rfl⟩
  · intro h
    simp [nextComputedDelay, onOpen, processMessageQueue, resubscribeAll, h,
      baseReconnectDelay, maxReconnectDelay]
  · simp [onOpen, processMessageQueue, resubscribeAll]

/-- A connector mid-reconnect, with an initialized delay base, two tracked
subscriptions, and three queued messages of which the middle one has
exceeded the maximum retry count. -/
def demoConn : ConnectorState :=
  { reconnectAttempts := 4
    reconnectDelay := some 1000
    messageQueue := [{ message := ['m', '1'], retryCount := 0 },
                     { message := ['m', '2'], retryCount := 4 },
                     { message := ['m', '3'], retryCount := 3 }]
    subscriptions := [['T', '1'], ['T', '2']] }

/-- C8 amended witness: opening `demoConn` resets the counter (bringing the
computed backoff back to its 1000 ms base), re-issues both subscriptions,
then flushes `m1` and `m3` in order while silently dropping `m2` (retry
count 4 > 3), emptying the queue. -/
theorem onOpen_spec_witness :
    nextComputedDelay (onOpen demoConn) = some baseReconnectDelay
    ∧ (onOpen demoConn).reconnectAttempts = 0
    ∧ (onOpen demoConn).sentLog
        = [OutMsg.subscribeMsg ['T', '1'], OutMsg.subscribeMsg ['T', '2'],
           OutMsg.appMsg ['m', '1'], OutMsg.appMsg ['m', '3']]
    ∧ (onOpen demoConn).messageQueue = [] := by
  have h := onOpen_spec demoConn
  exact ⟨h.2.2.1 rfl, h.1, by rw [h.2.2.2.1]; rfl, h.2.2.2.2⟩

/-- A two-row store for the retention-sweep witness: one row 31 days old,
one recent. -/
def sweepStore : DBState :=
  { rows :=
      [{ id := 1, source_app := ['a'], session_id := ['s'], hook_event_type := tyStop,
         payload := ['n', 'u', 'l', 'l'], chat := none, summary := none,
         timestamp := ['t'], created_at := 5, updated_at := 5 },
       { id := 2, source_app := ['a'], session_id := ['s'], hook_event_type := tyStop,
         payload := ['n', 'u', 'l', 'l'], chat := none, summary := none,
         timestamp := ['u'], created_at := 100000, updated_at := 100000 }]
    nextId := 3 }

/-- C5 witness: sweeping `sweepStore` at day 31 with a 30-day cutoff deletes
the old row, keeps the recent one, accounts for the count, and a second
identical sweep deletes zero and changes nothing. -/
theorem clearOldEvents_idempotent_witness :
    ({ id := 1, source_app := ['a'], session_id := ['s'], hook_event_type := tyStop,
       payload := ['n', 'u', 'l', 'l'], chat := none, summary := none,
       timestamp := ['t'], created_at := 5, updated_at := 5 : EventRow }
        ∉ (clearOldEvents sweepStore (86400 * 31) 30).2.rows)
    ∧ ({ id := 2, source_app := ['a'], session_id := ['s'], hook_event_type := tyStop,
         payload := ['n', 'u', 'l', 'l'], chat := none, summary := none,
         timestamp := ['u'], created_at := 100000, updated_at := 100000 : EventRow }
        ∈ (clearOldEvents sweepStore (86400 * 31) 30).2.rows)
    ∧ (clearOldEvents sweepStore (86400 * 31) 30).1
        + (clearOldEvents sweepStore (86400 * 31) 30).2.rows.length
        = sweepStore.rows.length
    ∧ clearOldEvents (clearOldEvents sweepStore (86400 * 31) 30).2 (86400 * 31) 30
        = (0, (clearOldEvents sweepStore (86400 * 31) 30).2) := by
  have h := clearOldEvents_idempotent sweepStore (86400 * 31) 30
  exact ⟨h.1 _ (by decide) (by decide), h.2.1 _ (by decide) (by decide),
    h.2.2.2.1, h.2.2.2.2⟩
